import Mathlib

/-!
Shallow embedding of the FactoryCalc production-chain knowledge base
(src/items.py, src/machines.py, src/recipes.py, src/appdb.py).

Modelling conventions:
* Python `float` timing/power values are modelled as exact rationals `ℚ`;
  every timing value occurring in the catalog (0.0, 1.0, 2.0, 10.0, 60.0)
  is exactly representable, and the code performs only `60 / t` and one
  multiplication on them.
* Python `float` results of the rate accessors are modelled by `PyFloat`,
  which keeps the IEEE special values (`inf`, `-inf`, `nan`) that
  `float("inf")` arithmetic can produce, with finite values exact.
* Python `dict` (insertion ordered, string keys here) is modelled as an
  association list `List (String × α)` with first-match lookup, in-place
  update of an existing key and append of a new key.
* Fallible construction (`__post_init__` raising) is modelled as
  `Except`-returning `make` functions; the raw structures hold the fields
  of an already-constructed object.
-/

/-- PyVal models a Python value supplied as a recipe quantity: either an
`int` or some non-`int` value (modelled as a float), so that the
`isinstance(v, int)` check of `Recipe._validate_inputs` is expressible. -/
inductive PyVal where
  | vint (z : Int)
  | vfloat (q : ℚ)
deriving DecidableEq

/-- PyFloat models a Python `float` result: exact finite rationals plus the
IEEE special values that `float("inf")` arithmetic can produce. -/
inductive PyFloat where
  | nan
  | inf
  | ninf
  | fin (q : ℚ)
deriving DecidableEq

/-- Multiplication of a Python float by a Python int, with IEEE rules for
the special values (`inf * 0` is `nan`, `inf * n` keeps the sign of `n`). -/
def PyFloat.mulInt : PyFloat → Int → PyFloat
  | .nan, _ => .nan
  | .inf, n => if 0 < n then .inf else if n = 0 then .nan else .ninf
  | .ninf, n => if 0 < n then .ninf else if n = 0 then .nan else .inf
  | .fin q, n => .fin (q * n)

/-- PyError models the exception classes raised by construction code. -/
inductive PyError where
  | typeError (msg : String)
  | valueError (msg : String)
deriving DecidableEq

/-- Item embeds `items.Item` (src/items.py), a frozen dataclass. -/
structure Item where
  name : String
  icon_path : String
  is_fluid : Bool
  stock_bill_valley : Int
  stock_bill_wuling : Int
deriving DecidableEq

/-- Item.pyEq is the `__eq__` that `@dataclass(frozen=True)` generates for
`Item`: it compares the tuple of ALL five fields, not just `name`. -/
def Item.pyEq (a b : Item) : Bool :=
  a.name == b.name && a.icon_path == b.icon_path && a.is_fluid == b.is_fluid &&
    a.stock_bill_valley == b.stock_bill_valley && a.stock_bill_wuling == b.stock_bill_wuling

/-- Item.hashKey is the tuple that the dataclass-generated `__hash__`
hashes: equal tuples give equal Python hashes. -/
def Item.hashKey (a : Item) : String × String × Bool × Int × Int :=
  (a.name, a.icon_path, a.is_fluid, a.stock_bill_valley, a.stock_bill_wuling)

/-- Item.stock_bill_per_item embeds the `stock_bill_per_item` property:
`self.stock_bill_valley or self.stock_bill_wuling` (Python `or` on ints
returns the first operand when it is non-zero). -/
def Item.stock_bill_per_item (a : Item) : Int :=
  if a.stock_bill_valley ≠ 0 then a.stock_bill_valley else a.stock_bill_wuling

/-- Machine embeds `machines.Machine` (src/machines.py), flattening the
`Building` base class fields (name, size, description, on_ground) with the
machine fields. Slot counts are `Int` so that the negative inputs the
validation rejects are representable. -/
structure Machine where
  name : String
  size : Int × Int
  description : String
  on_ground : Bool
  time_seconds : ℚ
  physical_input_slots : Int
  physical_output_slots : Int
  liquid_input_slots : Int
  liquid_output_slots : Int
  power_usage : ℚ
deriving DecidableEq

/-- Machine.footprint embeds `Building.footprint`: `size[0] * size[1]`. -/
def Machine.footprint (m : Machine) : Int := m.size.1 * m.size.2

/-- Machine.make embeds construction of a `Machine`, i.e. the dataclass
constructor followed by `Building.__post_init__` (positive size) and
`Machine.__post_init__` (non-negative cycle time, then the four slot
counts in source order), raising `ValueError` on the first violation. -/
def Machine.make (name : String) (size : Int × Int) (description : String)
    (on_ground : Bool) (time_seconds : ℚ)
    (physical_input_slots physical_output_slots liquid_input_slots liquid_output_slots : Int)
    (power_usage : ℚ) : Except String Machine :=
  if size.1 ≤ 0 ∨ size.2 ≤ 0 then
    .error "Building size must be positive"
  else if time_seconds < 0 then
    .error "Machine cycle time cannot be negative."
  else if physical_input_slots < 0 then
    .error "physical_input_slots cannot be negative."
  else if physical_output_slots < 0 then
    .error "physical_output_slots cannot be negative."
  else if liquid_input_slots < 0 then
    .error "liquid_input_slots cannot be negative."
  else if liquid_output_slots < 0 then
    .error "liquid_output_slots cannot be negative."
  else
    .ok { name := name, size := size, description := description, on_ground := on_ground,
          time_seconds := time_seconds,
          physical_input_slots := physical_input_slots,
          physical_output_slots := physical_output_slots,
          liquid_input_slots := liquid_input_slots,
          liquid_output_slots := liquid_output_slots,
          power_usage := power_usage }

/-- Recipe embeds `recipes.Recipe` after successful construction: the
output and ingredient dicts (insertion ordered) carry the validated
positive-integer quantities, and `time_seconds` is the resolved time. -/
structure Recipe where
  machine : Machine
  output : List (Item × Int)
  ingredients : List (Item × Int)
  time_seconds : ℚ
  ratio_raw : String
deriving DecidableEq

/-- isPosInt is the per-quantity acceptance test of
`Recipe._validate_inputs`: `isinstance(v, int) and v > 0` (the source
raises when `not isinstance(v, int) or v <= 0`). -/
def isPosInt : PyVal → Bool
  | .vint z => decide (0 < z)
  | .vfloat _ => false

/-- pyValToInt extracts the integer from a validated quantity; the
`vfloat` case is unreachable after validation succeeds. -/
def pyValToInt : PyVal → Int
  | .vint z => z
  | .vfloat _ => 0

/-- validateEntries embeds the per-dict loop of `Recipe._validate_inputs`:
it raises `ValueError` at the first quantity that is not a positive int,
naming the offending item. Keys are `Item` by type, so the `TypeError`
branch for non-Item keys is unrepresentable here. -/
def validateEntries (kind : String) : List (Item × PyVal) → Except PyError Unit
  | [] => .ok ()
  | (k, v) :: rest =>
    if isPosInt v then validateEntries kind rest
    else .error (.valueError (kind ++ " quantities must be positive ints for " ++ k.name))

/-- Recipe.make embeds `Recipe.__post_init__`: `_type_checks` (the machine
and dict `isinstance` checks hold by type here; empty `output` raises
`ValueError`), `_validate_inputs` on output then ingredients, then
`_resolve_timing` (an absent `time_seconds` copies the machine's, which a
`Machine` value always has). -/
def Recipe.make (machine : Machine) (output ingredients : List (Item × PyVal))
    (time_seconds : Option ℚ) (ratio_raw : String) : Except PyError Recipe :=
  if output.isEmpty then
    .error (.valueError "Recipe.output must contain at least one item.")
  else
    match validateEntries "Output" output with
    | .error e => .error e
    | .ok _ =>
      match validateEntries "Ingredient" ingredients with
      | .error e => .error e
      | .ok _ =>
        .ok { machine := machine,
              output := output.map (fun kv => (kv.1, pyValToInt kv.2)),
              ingredients := ingredients.map (fun kv => (kv.1, pyValToInt kv.2)),
              time_seconds := time_seconds.getD machine.time_seconds,
              ratio_raw := ratio_raw }

/-- Recipe.total_output_count embeds the `total_output_count` property:
`sum(self.output.values())`. -/
def Recipe.total_output_count (r : Recipe) : Int :=
  (r.output.map Prod.snd).sum

/-- Recipe.cycles_per_minute embeds the `cycles_per_minute` property:
`float("inf")` when `time_seconds == 0`, `0.0` when it is negative,
otherwise `60.0 / time_seconds`. -/
def Recipe.cycles_per_minute (r : Recipe) : PyFloat :=
  if r.time_seconds ≤ 0 then
    (if r.time_seconds = 0 then .inf else .fin 0)
  else
    .fin (60 / r.time_seconds)

/-- Recipe.items_per_minute embeds the `items_per_minute` property:
`cycles_per_minute * total_output_count`. -/
def Recipe.items_per_minute (r : Recipe) : PyFloat :=
  (r.cycles_per_minute).mulInt r.total_output_count

/-- Recipe.producesName says that `n` is among the recipe's output item
names (a specification device used to state index claims). -/
def Recipe.producesName (r : Recipe) (n : String) : Bool :=
  r.output.any (fun kv => kv.1.name == n)

/-- dictGet models `d.get(k)` on a Python dict with string keys:
the value at the first matching key, or `None`. -/
def dictGet {α : Type} : List (String × α) → String → Option α
  | [], _ => none
  | (k', v) :: rest, k => if k' = k then some v else dictGet rest k

/-- dictSet models `d[k] = v` on a Python dict: update in place when the
key is present, otherwise append at the end (insertion order). -/
def dictSet {α : Type} : List (String × α) → String → α → List (String × α)
  | [], k, v => [(k, v)]
  | (k', v') :: rest, k, v =>
    if k' = k then (k', v) :: rest else (k', v') :: dictSet rest k v

/-- dictContains models `k in d` for a string key `k`. -/
def dictContains {α : Type} : List (String × α) → String → Bool
  | [], _ => false
  | (k', _) :: rest, k => if k' = k then true else dictContains rest k

/-- pyEqStrItem is the Python equality test between a `str` dict key and
an `Item` value, as performed by `output_item not in self._recipes_by_output`
in `Database._rebuild_indexes`: objects of different types compare unequal,
so the test is constantly `false`. -/
def pyEqStrItem (_ : String) (_ : Item) : Bool := false

/-- outputIndexStep embeds one iteration of the inner loop of
`Database._rebuild_indexes` over `recipe.output.keys()`:

`if output_item not in self._recipes_by_output: self._recipes_by_output[output_item.name] = []`
`self._recipes_by_output[output_item.name].append(recipe)`

The membership test compares the `Item` against the dict's `str` keys. -/
def outputIndexStep (r : Recipe) (idx : List (String × List Recipe))
    (output_item : Item) : List (String × List Recipe) :=
  let idx' :=
    if idx.any (fun p => pyEqStrItem p.1 output_item) then idx
    else dictSet idx output_item.name []
  dictSet idx' output_item.name ((dictGet idx' output_item.name).getD [] ++ [r])

/-- machineIndexStep embeds the machine-index part of the rebuild loop:

`if m_name not in self._recipes_by_machine: self._recipes_by_machine[m_name] = []`
`self._recipes_by_machine[m_name].append(recipe)` -/
def machineIndexStep (idx : List (String × List Recipe)) (r : Recipe) :
    List (String × List Recipe) :=
  let m_name := r.machine.name
  let idx' := if dictContains idx m_name then idx else dictSet idx m_name []
  dictSet idx' m_name ((dictGet idx' m_name).getD [] ++ [r])

/-- Database embeds `appdb.Database`: the three collections and the two
derived indexes. -/
structure Database where
  items : List (String × Item)
  machines : List (String × Machine)
  recipes : List Recipe
  recipes_by_output : List (String × List Recipe)
  recipes_by_machine : List (String × List Recipe)
deriving DecidableEq

/-- Database.rebuild_indexes embeds `Database._rebuild_indexes`: both
indexes are cleared and repopulated by one pass over `recipes`. -/
def Database.rebuild_indexes (db : Database) : Database :=
  { db with
    recipes_by_output :=
      db.recipes.foldl
        (fun idx r => (r.output.map Prod.fst).foldl (outputIndexStep r) idx) [],
    recipes_by_machine := db.recipes.foldl machineIndexStep [] }

/-- Database.make embeds `Database.__init__`: store the collections,
start from empty indexes, and rebuild. -/
def Database.make (items : List (String × Item)) (machines : List (String × Machine))
    (recipes : List Recipe) : Database :=
  Database.rebuild_indexes
    { items := items, machines := machines, recipes := recipes,
      recipes_by_output := [], recipes_by_machine := [] }

/-- Database.get_item embeds `get_item`: `self.items.get(key)`. -/
def Database.get_item (db : Database) (key : String) : Option Item :=
  dictGet db.items key

/-- Database.get_machine embeds `get_machine`: `self.machines.get(key)`. -/
def Database.get_machine (db : Database) (key : String) : Option Machine :=
  dictGet db.machines key

/-- Database.get_recipes_for_item embeds `get_recipes_for_item`: resolve
`lookup` through the item registry first (`Item` objects are always
truthy), then probe the output index, defaulting to `[]`. -/
def Database.get_recipes_for_item (db : Database) (lookup : String) : List Recipe :=
  match dictGet db.items lookup with
  | some item_obj => (dictGet db.recipes_by_output item_obj.name).getD []
  | none => (dictGet db.recipes_by_output lookup).getD []

/-- Database.get_recipes_for_machine embeds `get_recipes_for_machine`,
symmetric to the item lookup. -/
def Database.get_recipes_for_machine (db : Database) (lookup : String) : List Recipe :=
  match dictGet db.machines lookup with
  | some mach_obj => (dictGet db.recipes_by_machine mach_obj.name).getD []
  | none => (dictGet db.recipes_by_machine lookup).getD []

/-- lastProducer picks the last recipe in insertion order whose output
names include `n` (a specification device for the index claims). -/
def lastProducer (n : String) : List Recipe → Option Recipe
  | [] => none
  | r :: rest =>
    match lastProducer n rest with
    | some r' => some r'
    | none => if r.producesName n then some r else none

/-! Concrete slice of the catalog (src/items.py, src/machines.py,
src/recipes.py), used for witnesses and concrete evaluations. -/

/-- amethyst_ore is the catalog item of that name. -/
def amethyst_ore : Item :=
  { name := "Amethyst Ore",
    icon_path := "ItemIcons/Natural_Resources_Icons/Amethyst_Ore.png",
    is_fluid := false, stock_bill_valley := 0, stock_bill_wuling := 0 }

/-- amethyst_powder is the catalog item of that name. -/
def amethyst_powder : Item :=
  { name := "Amethyst Powder",
    icon_path := "ItemIcons/AIC_Products_Icons/Amethyst_Powder.png",
    is_fluid := false, stock_bill_valley := 0, stock_bill_wuling := 0 }

/-- amethyst_fiber is the catalog item of that name. -/
def amethyst_fiber : Item :=
  { name := "Amethyst Fiber",
    icon_path := "ItemIcons/AIC_Products_Icons/Amethyst_Fiber.png",
    is_fluid := false, stock_bill_valley := 0, stock_bill_wuling := 0 }

/-- wood is the catalog item of that name. -/
def wood : Item :=
  { name := "Wood",
    icon_path := "ItemIcons/Natural_Resources_Icons/Wood.png",
    is_fluid := false, stock_bill_valley := 0, stock_bill_wuling := 0 }

/-- refining_unit is the catalog machine of that name (cycle time 2.0s). -/
def refining_unit : Machine :=
  { name := "Refining Unit", size := (3, 3), description := "", on_ground := true,
    time_seconds := 2, physical_input_slots := 3, physical_output_slots := 3,
    liquid_input_slots := 0, liquid_output_slots := 0, power_usage := 5 }

/-- depot_loader is the catalog machine of that name (cycle time 0.0s). -/
def depot_loader : Machine :=
  { name := "Depot Loader", size := (1, 3), description := "", on_ground := true,
    time_seconds := 0, physical_input_slots := 1, physical_output_slots := 0,
    liquid_input_slots := 0, liquid_output_slots := 0, power_usage := 0 }

/-- amethyst_fiber_recipe_1 is the first catalog recipe producing
Amethyst Fiber (from Amethyst Ore on the Refining Unit). -/
def amethyst_fiber_recipe_1 : Recipe :=
  { machine := refining_unit, output := [(amethyst_fiber, 1)],
    ingredients := [(amethyst_ore, 1)], time_seconds := 2, ratio_raw := "" }

/-- amethyst_fiber_recipe_2 is the second catalog recipe producing
Amethyst Fiber (from Amethyst Powder on the Refining Unit). -/
def amethyst_fiber_recipe_2 : Recipe :=
  { machine := refining_unit, output := [(amethyst_fiber, 1)],
    ingredients := [(amethyst_powder, 1)], time_seconds := 2, ratio_raw := "" }

/-- sampleDB is a Database over the two Amethyst Fiber recipes, which both
produce the same output item name, exactly as they do in the catalog. -/
def sampleDB : Database :=
  Database.make [] [] [amethyst_fiber_recipe_1, amethyst_fiber_recipe_2]

/-! Helper lemmas about the dict model and the index folds. -/

/-- dictGet_set_self: reading back the key just written. -/
theorem dictGet_set_self {α : Type} (d : List (String × α)) (k : String) (v : α) :
    dictGet (dictSet d k v) k = some v := by
  induction d with
  | nil => simp [dictSet, dictGet]
  | cons p rest ih =>
    obtain ⟨k', v'⟩ := p
    by_cases h : k' = k
    · simp [dictSet, dictGet, h]
    · simp [dictSet, dictGet, h, ih]

/-- dictGet_set_ne: writing one key leaves other keys unchanged. -/
theorem dictGet_set_ne {α : Type} (d : List (String × α)) (k k' : String) (v : α)
    (h : k ≠ k') : dictGet (dictSet d k v) k' = dictGet d k' := by
  induction d with
  | nil => simp [dictSet, dictGet, h]
  | cons p rest ih =>
    obtain ⟨k0, v0⟩ := p
    by_cases h0 : k0 = k
    · subst h0
      simp [dictSet, dictGet, h]
    · simp [dictSet, dictGet, h0, ih]

/-- dictGet_of_contains_false: a key that is not in the dict reads `none`. -/
theorem dictGet_of_contains_false {α : Type} (d : List (String × α)) (k : String)
    (h : dictContains d k = false) : dictGet d k = none := by
  induction d with
  | nil => rfl
  | cons p rest ih =>
    obtain ⟨k0, v0⟩ := p
    by_cases h0 : k0 = k
    · simp [dictContains, h0] at h
    · simp only [dictContains, if_neg h0] at h
      simp [dictGet, h0, ih h]

/-- any_pyEqStrItem_false: an `Item` is never Python-equal to any of the
string keys of an index dict, so the membership probe always misses. -/
theorem any_pyEqStrItem_false (d : List (String × List Recipe)) (it : Item) :
    (d.any fun p => pyEqStrItem p.1 it) = false := by
  simp [pyEqStrItem]

/-- outputIndexStep_eq: because the membership probe always misses, each
inner-loop iteration resets the bucket and then appends, leaving the
singleton bucket of the current recipe. -/
theorem outputIndexStep_eq (r : Recipe) (idx : List (String × List Recipe)) (it : Item) :
    outputIndexStep r idx it = dictSet (dictSet idx it.name []) it.name [r] := by
  unfold outputIndexStep
  rw [any_pyEqStrItem_false]
  simp [dictGet_set_self]

/-- innerFold_get: after the inner loop over one recipe's output keys, a
name produced by that recipe has the singleton bucket of that recipe and
every other bucket is unchanged. -/
theorem innerFold_get (r : Recipe) (l : List Item) (idx : List (String × List Recipe))
    (n : String) :
    (dictGet (l.foldl (outputIndexStep r) idx) n).getD [] =
      (if l.any (fun it => it.name == n) then [r] else (dictGet idx n).getD []) := by
  induction l generalizing idx with
  | nil => simp
  | cons it rest ih =>
    rw [List.foldl_cons, ih]
    by_cases h : it.name = n
    · subst h
      have hstep : (dictGet (outputIndexStep r idx it) it.name).getD [] = [r] := by
        rw [outputIndexStep_eq, dictGet_set_self]
        rfl
      cases hr : rest.any (fun x => x.name == it.name) <;> simp [hstep, hr]
    · have hstep : (dictGet (outputIndexStep r idx it) n).getD [] = (dictGet idx n).getD [] := by
        rw [outputIndexStep_eq, dictGet_set_ne _ _ _ _ h, dictGet_set_ne _ _ _ _ h]
      simp [hstep, h]

/-- outputFold_get: after the full rebuild loop, the output-index bucket
of a name holds exactly the last recipe (in insertion order) producing it,
or the starting bucket when no recipe does. -/
theorem outputFold_get (recs : List Recipe) (idx : List (String × List Recipe)) (n : String) :
    (dictGet (recs.foldl
        (fun acc r => (r.output.map Prod.fst).foldl (outputIndexStep r) acc) idx) n).getD [] =
      (lastProducer n recs).elim ((dictGet idx n).getD []) (fun r => [r]) := by
  induction recs generalizing idx with
  | nil => simp [lastProducer]
  | cons r rest ih =>
    rw [List.foldl_cons, ih]
    cases hlast : lastProducer n rest with
    | some r' => simp [lastProducer, hlast]
    | none =>
      simp only [lastProducer, hlast]
      rw [innerFold_get]
      have hmap : ((r.output.map Prod.fst).any fun it => it.name == n) = r.producesName n := by
        unfold Recipe.producesName
        induction r.output with
        | nil => rfl
        | cons kv tl ihl => simp [ihl]
      rw [hmap]
      cases hp : r.producesName n <;> simp

/-- machineIndexStep_get: one machine-index step appends the recipe to its
machine's bucket and leaves other buckets unchanged. -/
theorem machineIndexStep_get (idx : List (String × List Recipe)) (r : Recipe) (n : String) :
    (dictGet (machineIndexStep idx r) n).getD [] =
      (if r.machine.name = n then (dictGet idx n).getD [] ++ [r]
       else (dictGet idx n).getD []) := by
  unfold machineIndexStep
  by_cases h : r.machine.name = n
  · subst h
    cases hc : dictContains idx r.machine.name
    · simp [hc, dictGet_set_self, dictGet_of_contains_false _ _ hc]
    · simp [hc, dictGet_set_self]
  · cases hc : dictContains idx r.machine.name
    · simp [hc, dictGet_set_ne _ _ _ _ h, h]
    · simp [hc, dictGet_set_ne _ _ _ _ h, h]

/-- machineFold_get: after the full rebuild loop, the machine-index bucket
of a name is the starting bucket followed by every recipe whose machine
has that name, in insertion order. -/
theorem machineFold_get (recs : List Recipe) (idx : List (String × List Recipe)) (n : String) :
    (dictGet (recs.foldl machineIndexStep idx) n).getD [] =
      (dictGet idx n).getD [] ++ recs.filter (fun r => r.machine.name == n) := by
  induction recs generalizing idx with
  | nil => simp
  | cons r rest ih =>
    rw [List.foldl_cons, ih, machineIndexStep_get]
    by_cases h : r.machine.name = n
    · simp [List.filter_cons, h]
    · simp [List.filter_cons, h]

/-- validateEntries_ok_iff: the validation loop succeeds exactly when
every quantity is a positive int. -/
theorem validateEntries_ok_iff (kind : String) (l : List (Item × PyVal)) :
    validateEntries kind l = .ok () ↔ ∀ kv ∈ l, isPosInt kv.2 = true := by
  induction l with
  | nil => simp [validateEntries]
  | cons kv rest ih =>
    obtain ⟨k, v⟩ := kv
    by_cases h : isPosInt v = true
    · simp [validateEntries, h, ih]
    · simp [validateEntries, h]

/-- validateEntries_cases: the validation loop either succeeds or raises a
`ValueError`. -/
theorem validateEntries_cases (kind : String) (l : List (Item × PyVal)) :
    validateEntries kind l = .ok () ∨
      ∃ msg, validateEntries kind l = .error (.valueError msg) := by
  induction l with
  | nil => exact Or.inl rfl
  | cons kv rest ih =>
    obtain ⟨k, v⟩ := kv
    by_cases h : isPosInt v = true
    · simpa [validateEntries, h] using ih
    · exact Or.inr ⟨kind ++ " quantities must be positive ints for " ++ k.name,
        by simp [validateEntries, h]⟩

/-- lastProducer_eq_none: when no recipe in the list produces the name,
there is no last producer. -/
theorem lastProducer_eq_none (n : String) (l : List Recipe)
    (h : ∀ r ∈ l, r.producesName n = false) : lastProducer n l = none := by
  induction l with
  | nil => rfl
  | cons r rest ih =>
    have hr := h r (by simp)
    simp [lastProducer, ih (fun r' hr' => h r' (by simp [hr'])), hr]

/-! Claim theorems. -/

/-- Claim C1: the spec asserts index completeness — every recipe should
appear in the output bucket of each of its output item names. The code
violates it: `_rebuild_indexes` tests `output_item not in self._recipes_by_output`,
comparing an `Item` against `str` keys, so the test always misses and each
bucket is reset before every append. With the two catalog Amethyst Fiber
recipes, the output bucket retains only the last one, while the machine
index (whose membership test uses the string name) is complete. -/
theorem index_rebuild_drops_earlier_output_recipes :
    sampleDB.get_recipes_for_item "Amethyst Fiber" = [amethyst_fiber_recipe_2] ∧
    amethyst_fiber_recipe_1 ≠ amethyst_fiber_recipe_2 ∧
    sampleDB.get_recipes_for_machine "Refining Unit" =
      [amethyst_fiber_recipe_1, amethyst_fiber_recipe_2] := by
  decide

/-- Claim C2 (counterexample): the claim says a Recipe whose resolved
`time_seconds` is strictly negative is rejected at construction, but
`_resolve_timing` has no sign check: an explicit `time_seconds = -1`
Recipe is constructed successfully. -/
theorem negative_recipe_time_accepted_cx :
    Recipe.make refining_unit [(amethyst_fiber, PyVal.vint 1)] [] (some (-1)) "" =
      .ok { machine := refining_unit, output := [(amethyst_fiber, 1)], ingredients := [],
            time_seconds := -1, ratio_raw := "" } := by
  rfl

/-- Claim C2 (amended): construction does not reject a negative resolved
`time_seconds`; with valid output/ingredients it succeeds, stores the
negative time, and `cycles_per_minute` then evaluates to `0.0`. -/
theorem negative_recipe_time_accepted (m : Machine) (out ing : List (Item × PyVal))
    (t : ℚ) (rr : String) (hne : out ≠ [])
    (hout : ∀ kv ∈ out, isPosInt kv.2 = true) (hing : ∀ kv ∈ ing, isPosInt kv.2 = true)
    (ht : t < 0) :
    ∃ r, Recipe.make m out ing (some t) rr = .ok r ∧ r.time_seconds = t ∧
      r.cycles_per_minute = PyFloat.fin 0 := by
  have he : out.isEmpty = false := by
    cases out with
    | nil => exact absurd rfl hne
    | cons a l => rfl
  have h1 : validateEntries "Output" out = .ok () := (validateEntries_ok_iff _ _).mpr hout
  have h2 : validateEntries "Ingredient" ing = .ok () := (validateEntries_ok_iff _ _).mpr hing
  refine ⟨{ machine := m,
            output := out.map (fun kv => (kv.1, pyValToInt kv.2)),
            ingredients := ing.map (fun kv => (kv.1, pyValToInt kv.2)),
            time_seconds := t, ratio_raw := rr }, ?_, rfl, ?_⟩
  · unfold Recipe.make
    rw [if_neg (by simp [he]), h1, h2]
    rfl
  · have hle : t ≤ 0 := le_of_lt ht
    have hne0 : ¬(t = 0) := ne_of_lt ht
    simp [Recipe.cycles_per_minute, hle, hne0]

/-- Claim C2 (witness): the amended statement at the concrete input of the
counterexample. -/
theorem negative_recipe_time_accepted_witness :
    ∃ r, Recipe.make refining_unit [(amethyst_fiber, PyVal.vint 1)] [] (some (-1)) "" = .ok r ∧
      r.time_seconds = -1 ∧ r.cycles_per_minute = PyFloat.fin 0 :=
  negative_recipe_time_accepted refining_unit [(amethyst_fiber, PyVal.vint 1)] [] (-1) ""
    (by decide) (by decide) (by decide) (by norm_num)

/-- Claim C3 (counterexample): the claim says two Items with the same name
are equal; the dataclass-generated equality compares all five fields, so
two same-named Items with different icon paths are not equal. -/
theorem item_equality_not_by_name_cx :
    (Item.mk "Wood" "a.png" false 0 0).name = (Item.mk "Wood" "b.png" false 0 0).name ∧
    Item.pyEq (Item.mk "Wood" "a.png" false 0 0) (Item.mk "Wood" "b.png" false 0 0) = false := by
  decide

/-- Claim C3 (amended): Item equality and hashing are over the full field
tuple — `__eq__` holds exactly when all five fields agree, which is also
exactly when the tuples fed to `hash` agree. -/
theorem item_equality_all_fields (a b : Item) :
    (Item.pyEq a b = true ↔ a = b) ∧ (Item.hashKey a = Item.hashKey b ↔ a = b) := by
  obtain ⟨an, ai, af, av, aw⟩ := a
  obtain ⟨bn, bi, bf, bv, bw⟩ := b
  constructor
  · simp [Item.pyEq, Item.mk.injEq, and_assoc]
  · simp [Item.hashKey, Item.mk.injEq, Prod.ext_iff, and_assoc]

/-- Claim C4: a Recipe with `time_seconds == 0` has
`cycles_per_minute == float("inf")` — the accessor is total, and the value
is the unbounded sentinel, not `0.0`. -/
theorem zero_time_unbounded_rate (r : Recipe) (h : r.time_seconds = 0) :
    r.cycles_per_minute = PyFloat.inf ∧ r.cycles_per_minute ≠ PyFloat.fin 0 := by
  have h1 : r.cycles_per_minute = PyFloat.inf := by
    unfold Recipe.cycles_per_minute
    rw [h]
    norm_num
  refine ⟨h1, ?_⟩
  rw [h1]
  decide

/-- zero_time_recipe is a Recipe on the Depot Loader, whose catalog cycle
time is 0.0, inherited by the recipe. -/
def zero_time_recipe : Recipe :=
  { machine := depot_loader, output := [(wood, 1)], ingredients := [],
    time_seconds := 0, ratio_raw := "" }

/-- Claim C4 (witness): the zero-time convention at a concrete Recipe. -/
theorem zero_time_unbounded_rate_witness :
    zero_time_recipe.time_seconds = 0 ∧ zero_time_recipe.cycles_per_minute = PyFloat.inf :=
  ⟨rfl, (zero_time_unbounded_rate zero_time_recipe rfl).1⟩

/-- Claim C5: for `time_seconds > 0`, `items_per_minute` equals
`cycles_per_minute * total_output_count` exactly, with
`cycles_per_minute = 60 / time_seconds` and `total_output_count` the sum
of the output quantities. -/
theorem recipe_rate_law (r : Recipe) (h : 0 < r.time_seconds) :
    r.items_per_minute = (r.cycles_per_minute).mulInt r.total_output_count ∧
    r.cycles_per_minute = PyFloat.fin (60 / r.time_seconds) ∧
    r.total_output_count = (r.output.map Prod.snd).sum ∧
    r.items_per_minute = PyFloat.fin (60 / r.time_seconds * r.total_output_count) := by
  have hc : r.cycles_per_minute = PyFloat.fin (60 / r.time_seconds) := by
    unfold Recipe.cycles_per_minute
    rw [if_neg (not_le.mpr h)]
  refine ⟨rfl, hc, rfl, ?_⟩
  unfold Recipe.items_per_minute
  rw [hc]
  rfl

/-- Claim C5 (witness): the rate law at the first Amethyst Fiber recipe:
2-second cycles, one item per cycle, 30 items per minute. -/
theorem recipe_rate_law_witness :
    0 < amethyst_fiber_recipe_1.time_seconds ∧
    amethyst_fiber_recipe_1.items_per_minute = PyFloat.fin 30 := by
  refine ⟨by norm_num [amethyst_fiber_recipe_1], ?_⟩
  have h := (recipe_rate_law amethyst_fiber_recipe_1 (by norm_num [amethyst_fiber_recipe_1])).2.2.2
  rw [h]
  norm_num [amethyst_fiber_recipe_1, Recipe.total_output_count]

/-- Claim C6: Machine construction succeeds with `footprint = width * height`
whenever width and height are positive and time and the four slot counts
are non-negative, and fails when any of those conditions is violated. -/
theorem machine_construction_contract (name description : String) (w h : Int)
    (og : Bool) (t : ℚ) (pis pos lis los : Int) (pw : ℚ) :
    (0 < w ∧ 0 < h ∧ 0 ≤ t ∧ 0 ≤ pis ∧ 0 ≤ pos ∧ 0 ≤ lis ∧ 0 ≤ los →
      ∃ m, Machine.make name (w, h) description og t pis pos lis los pw = .ok m ∧
        m.footprint = w * h) ∧
    (w ≤ 0 ∨ h ≤ 0 ∨ t < 0 ∨ pis < 0 ∨ pos < 0 ∨ lis < 0 ∨ los < 0 →
      ∃ e, Machine.make name (w, h) description og t pis pos lis los pw = .error e) := by
  constructor
  · rintro ⟨hw, hh, ht, h1, h2, h3, h4⟩
    have c1 : ¬((w, h).1 ≤ 0 ∨ (w, h).2 ≤ 0) := by
      push_neg
      exact ⟨hw, hh⟩
    unfold Machine.make
    rw [if_neg c1, if_neg (not_lt.mpr ht), if_neg (not_lt.mpr h1), if_neg (not_lt.mpr h2),
        if_neg (not_lt.mpr h3), if_neg (not_lt.mpr h4)]
    exact ⟨_, rfl, rfl⟩
  · intro hbad
    unfold Machine.make
    split_ifs with a1 a2 a3 a4 a5 a6
    · exact ⟨_, rfl⟩
    · exact ⟨_, rfl⟩
    · exact ⟨_, rfl⟩
    · exact ⟨_, rfl⟩
    · exact ⟨_, rfl⟩
    · exact ⟨_, rfl⟩
    · exfalso
      rcases hbad with h0 | h0 | h0 | h0 | h0 | h0 | h0
      · exact a1 (Or.inl h0)
      · exact a1 (Or.inr h0)
      · exact a2 h0
      · exact a3 h0
      · exact a4 h0
      · exact a5 h0
      · exact a6 h0

/-- Claim C6 (witness): a valid Refining-Unit-shaped input constructs with
footprint 9, and a zero-width input is rejected. -/
theorem machine_construction_contract_witness :
    (∃ m, Machine.make "Refining Unit" (3, 3) "" true 2 3 3 0 0 5 = .ok m ∧
        m.footprint = 3 * 3) ∧
    (∃ e, Machine.make "Broken" (0, 3) "" true 2 3 3 0 0 5 = .error e) :=
  ⟨(machine_construction_contract "Refining Unit" "" 3 3 true 2 3 3 0 0 5).1
      (by norm_num),
   (machine_construction_contract "Broken" "" 0 3 true 2 3 3 0 0 5).2
      (Or.inl (by norm_num))⟩

/-- Claim C7: Recipe construction raises a ValueError when the output
mapping is empty or when any output or ingredient quantity is not a
positive int; no Recipe is produced. -/
theorem recipe_validation_rejects (m : Machine) (out ing : List (Item × PyVal))
    (t : Option ℚ) (rr : String)
    (h : out = [] ∨ (∃ kv ∈ out, isPosInt kv.2 = false) ∨ (∃ kv ∈ ing, isPosInt kv.2 = false)) :
    ∃ msg, Recipe.make m out ing t rr = .error (PyError.valueError msg) := by
  unfold Recipe.make
  by_cases he : out.isEmpty
  · rw [if_pos he]
    exact ⟨_, rfl⟩
  · rw [if_neg he]
    rcases validateEntries_cases "Output" out with hok | ⟨msg, herr⟩
    · rw [hok]
      rcases validateEntries_cases "Ingredient" ing with hok2 | ⟨msg2, herr2⟩
      · exfalso
        rcases h with h0 | ⟨kv, hmem, hbad⟩ | ⟨kv, hmem, hbad⟩
        · exact he (by simp [h0])
        · have := (validateEntries_ok_iff "Output" out).mp hok kv hmem
          simp [hbad] at this
        · have := (validateEntries_ok_iff "Ingredient" ing).mp hok2 kv hmem
          simp [hbad] at this
      · rw [herr2]
        exact ⟨msg2, rfl⟩
    · rw [herr]
      exact ⟨msg, rfl⟩

/-- Claim C7 (witness): the empty-output rejection at a concrete input. -/
theorem recipe_validation_rejects_witness :
    ∃ msg, Recipe.make refining_unit [] [(amethyst_ore, PyVal.vint 1)] none "" =
      .error (PyError.valueError msg) :=
  recipe_validation_rejects refining_unit [] [(amethyst_ore, PyVal.vint 1)] none ""
    (Or.inl rfl)

/-- Claim C8: a Recipe constructed without an explicit `time_seconds`
inherits the machine's cycle time; with a 2-second machine the recipe runs
30 cycles per minute. -/
theorem recipe_timing_inheritance (m : Machine) (out ing : List (Item × PyVal))
    (rr : String) (r : Recipe) (h : Recipe.make m out ing none rr = .ok r) :
    r.time_seconds = m.time_seconds ∧
    (m.time_seconds = 2 → r.cycles_per_minute = PyFloat.fin 30) := by
  unfold Recipe.make at h
  by_cases he : out.isEmpty
  · rw [if_pos he] at h
    exact absurd h (by simp)
  · rw [if_neg he] at h
    rcases validateEntries_cases "Output" out with hok | ⟨msg, herr⟩
    · rw [hok] at h
      rcases validateEntries_cases "Ingredient" ing with hok2 | ⟨msg2, herr2⟩
      · rw [hok2] at h
        injection h with hr
        subst hr
        refine ⟨rfl, ?_⟩
        intro h2
        have hne0 : ¬((2:ℚ) ≤ 0) := by norm_num
        have h60 : (60:ℚ) / 2 = 30 := by norm_num
        simp only [Recipe.cycles_per_minute, Option.getD, h2, if_neg hne0, h60]
      · rw [herr2] at h
        exact absurd h (by simp)
    · rw [herr] at h
      exact absurd h (by simp)

/-- Claim C8 (witness): timing inheritance at the first Amethyst Fiber
recipe, built with no explicit time on the 2-second Refining Unit. -/
theorem recipe_timing_inheritance_witness :
    amethyst_fiber_recipe_1.time_seconds = refining_unit.time_seconds ∧
    amethyst_fiber_recipe_1.cycles_per_minute = PyFloat.fin 30 := by
  have h := recipe_timing_inheritance refining_unit
    [(amethyst_fiber, PyVal.vint 1)] [(amethyst_ore, PyVal.vint 1)] ""
    amethyst_fiber_recipe_1 (by rfl)
  exact ⟨h.1, h.2 rfl⟩

/-- Claim C9: the four query operations are total functions; a missing
item or machine key reads back as `none`, and when no recipe produces the
looked-up item name (resp. runs on the looked-up machine name) the recipe
lookups return `[]` rather than raising. -/
theorem query_surface_total (its : List (String × Item)) (machs : List (String × Machine))
    (recs : List Recipe) (key : String) :
    (dictContains its key = false → (Database.make its machs recs).get_item key = none) ∧
    (dictContains machs key = false → (Database.make its machs recs).get_machine key = none) ∧
    (dictContains its key = false → (∀ r ∈ recs, r.producesName key = false) →
      (Database.make its machs recs).get_recipes_for_item key = []) ∧
    (dictContains machs key = false → (∀ r ∈ recs, (r.machine.name == key) = false) →
      (Database.make its machs recs).get_recipes_for_machine key = []) := by
  refine ⟨?_, ?_, ?_, ?_⟩
  · intro h
    exact dictGet_of_contains_false its key h
  · intro h
    exact dictGet_of_contains_false machs key h
  · intro h1 h2
    have hnone : dictGet (Database.make its machs recs).items key = none :=
      dictGet_of_contains_false its key h1
    have hbucket : (dictGet (Database.make its machs recs).recipes_by_output key).getD [] = [] := by
      show (dictGet (recs.foldl
          (fun acc r => (r.output.map Prod.fst).foldl (outputIndexStep r) acc) []) key).getD [] = []
      rw [outputFold_get, lastProducer_eq_none key recs h2]
      rfl
    unfold Database.get_recipes_for_item
    rw [hnone]
    exact hbucket
  · intro h1 h2
    have hnone : dictGet (Database.make its machs recs).machines key = none :=
      dictGet_of_contains_false machs key h1
    have hbucket : (dictGet (Database.make its machs recs).recipes_by_machine key).getD [] = [] := by
      show (dictGet (recs.foldl machineIndexStep []) key).getD [] = []
      rw [machineFold_get]
      have hnil : recs.filter (fun r => r.machine.name == key) = [] :=
        List.filter_eq_nil_iff.mpr (fun r hr => by simp [h2 r hr])
      simp [hnil, dictGet]
    unfold Database.get_recipes_for_machine
    rw [hnone]
    exact hbucket

/-- Claim C9 (witness): a miss on every query of the sample database. -/
theorem query_surface_total_witness :
    sampleDB.get_item "nonexistent" = none ∧
    sampleDB.get_machine "nonexistent" = none ∧
    sampleDB.get_recipes_for_item "nonexistent" = [] ∧
    sampleDB.get_recipes_for_machine "nonexistent" = [] := by
  have h := query_surface_total [] [] [amethyst_fiber_recipe_1, amethyst_fiber_recipe_2]
    "nonexistent"
  exact ⟨h.1 rfl, h.2.1 rfl, h.2.2.1 rfl (by decide), h.2.2.2 rfl (by decide)⟩

/-- Claim C10: after an index rebuild every output bucket holds at most
one recipe, namely the last recipe in insertion order producing that item
name, so `get_recipes_for_item` always returns a list of length at most 1.
(In this embedding output keys are `Item` values by type, which is the
claim's hypothesis.) -/
theorem output_index_bucket_at_most_last (db : Database) (n : String) :
    (dictGet (db.rebuild_indexes).recipes_by_output n).getD [] =
      (lastProducer n db.recipes).elim [] (fun r => [r]) ∧
    ((db.rebuild_indexes).get_recipes_for_item n).length ≤ 1 := by
  have hchar : ∀ k : String, (dictGet (db.rebuild_indexes).recipes_by_output k).getD [] =
      (lastProducer k db.recipes).elim [] (fun r => [r]) := by
    intro k
    show (dictGet (db.recipes.foldl
        (fun acc r => (r.output.map Prod.fst).foldl (outputIndexStep r) acc) []) k).getD [] = _
    rw [outputFold_get]
    cases lastProducer k db.recipes <;> rfl
  refine ⟨hchar n, ?_⟩
  unfold Database.get_recipes_for_item
  cases hit : dictGet (db.rebuild_indexes).items n with
  | some it =>
    simp only [hit]
    rw [hchar it.name]
    cases lastProducer it.name db.recipes <;> simp
  | none =>
    simp only [hit]
    rw [hchar n]
    cases lastProducer n db.recipes <;> simp
